import Mathlib

/-!
Formal model of `src/ColorGradient.h`.

A shallow embedding of the gradient color evaluator:

* `rgb` — three 8-bit channels (`uint8_t` values, modelled as `Nat`
  together with the bound predicate `rgb.Valid`);
* `rgb.eqOp` — the source's `rgb::operator==`;
* `Gradient` — the class state, fields in source order;
* `Gradient.initialize`, the two constructors, and `Gradient.getRgb`.

The source performs its bin arithmetic in `float`/`double`; the model uses
exact rational arithmetic (`ℚ`) for those expressions, i.e. it is the
idealised real-valued computation the source approximates.  Machine
narrowing casts are kept explicit (`truncToZero`, `u8cast`), and
out-of-bounds `std::vector` accesses — undefined behaviour in C++ — are
modelled by `Option`: `getRgb` returns `none` exactly when it would touch
the stop vector outside its bounds.
-/

/-- The color struct of the source: three `uint8_t` channels.  Channels are
modelled as `Nat`; the machine range is captured by `rgb.Valid`. -/
structure rgb where
  red : Nat
  green : Nat
  blue : Nat
deriving Repr, DecidableEq

/-- The channels fit the `uint8_t` range `0..255`. -/
def rgb.Valid (c : rgb) : Prop := c.red ≤ 255 ∧ c.green ≤ 255 ∧ c.blue ≤ 255

instance (c : rgb) : Decidable c.Valid := by
  unfold rgb.Valid; infer_instance

/-- `static rgb INVALID_COLOR = { 0, 0, 0 };` — the sentinel meaning
"no outlier color configured". -/
def INVALID_COLOR : rgb := ⟨0, 0, 0⟩

/-- Embeds `rgb::operator==`, whose body is `return this == &lhr;`.
`lhr` is a by-value parameter, so `&lhr` is the address of a fresh copy;
the receiver and that copy are distinct live objects in every call, hence
the pointer comparison is false on every call, whatever the channel
values of either side.  The embedding is therefore the constant-false
relation on the receiver (`_this`) and the argument (`_lhr`). -/
def rgb.eqOp (_this _lhr : rgb) : Bool := false

/-- Truncation toward zero, the behaviour of C++'s floating-to-integral
conversion. -/
def truncToZero (q : ℚ) : ℤ := if q < 0 then ⌈q⌉ else ⌊q⌋

/-- The `(uint8_t)` narrowing cast applied to a floating value: truncate
toward zero, then reduce into the 8-bit machine range.  (In C++ the cast
is undefined outside `[0, 256)`; `interpolate` only ever applies it inside
`[0, 255]`, where it is plain truncation.) -/
def u8cast (q : ℚ) : Nat := (truncToZero q).toNat % 256

/-- The `Gradient` class state, fields in source order.  `m_min`/`m_max`
are `uint16_t` (their values stay below `2 ^ 16`; no claim exercises
wrap-around, and on every path reachable with `m_min ≤ value ≤ m_max` the
`uint16_t` subtractions agree with `Nat` subtraction). -/
structure Gradient where
  m_min : Nat
  m_minColor : rgb
  m_minOutlierColor : rgb
  m_max : Nat
  m_maxColor : rgb
  m_maxOutlierColor : rgb
  m_stops : List rgb
deriving Repr, DecidableEq

namespace Gradient

/-- `rgb interpolate(rgb c1, rgb c2, float normalized_value)`:
short-circuit at `t ≤ 0` and `t ≥ 1`, otherwise blend each channel as
`(uint8_t)((1.0 - t)*c1.ch + t*c2.ch)`. -/
def interpolate (c1 c2 : rgb) (normalized_value : ℚ) : rgb :=
  if normalized_value ≤ 0 then c1
  else if 1 ≤ normalized_value then c2
  else
    { red := u8cast ((1 - normalized_value) * c1.red + normalized_value * c2.red)
      green := u8cast ((1 - normalized_value) * c1.green + normalized_value * c2.green)
      blue := u8cast ((1 - normalized_value) * c1.blue + normalized_value * c2.blue) }

/-- `uint16_t range = m_max - m_min;` -/
def rangeOf (g : Gradient) : Nat := g.m_max - g.m_min

/-- `float step = range / (float)(m_stops.size() - 1);` (idealised to ℚ). -/
def stepOf (g : Gradient) : ℚ := (g.rangeOf : ℚ) / ((g.m_stops.length - 1 : Nat) : ℚ)

/-- `int bin = (int)(v / step);` with `v = value - m_min`.  The quotient is
never negative on the in-range path, so the `(int)` truncation is the floor,
and the `size_t` index the vector sees is its `toNat`. -/
def binOf (g : Gradient) (value : Nat) : Nat :=
  (⌊((value - g.m_min : Nat) : ℚ) / g.stepOf⌋).toNat

/-- `float normalized_v = (v - bin*step) / step;` -/
def normalizedOf (g : Gradient) (value : Nat) : ℚ :=
  (((value - g.m_min : Nat) : ℚ) - (g.binOf value : Nat) * g.stepOf) / g.stepOf

/-- `rgb getRgb(uint16_t value)`.  The two outlier branches mirror the
source ternaries (`front()`/`back()` on an empty vector are UB, hence
`head?`/`getLast?`); the in-range branch reads `m_stops[bin]` and
`m_stops[bin + 1]`, which is `none` when either index is out of bounds
(UB in the source). -/
def getRgb (g : Gradient) (value : Nat) : Option rgb :=
  if value < g.m_min then
    if g.m_minOutlierColor.eqOp INVALID_COLOR then g.m_stops.head?
    else some g.m_minOutlierColor
  else if g.m_max < value then
    if g.m_maxOutlierColor.eqOp INVALID_COLOR then g.m_stops.getLast?
    else some g.m_maxOutlierColor
  else
    match g.m_stops.get? (g.binOf value), g.m_stops.get? (g.binOf value + 1) with
    | some c1, some c2 => some (interpolate c1 c2 (g.normalizedOf value))
    | _, _ => none

/-- `void initialize(...)` (the name `initialize` is a Lean keyword, hence the suffix): stores all five parameters verbatim; the unused
fields `m_minColor`/`m_maxColor` are left as they were. -/
def initializeModel (g : Gradient) (min max : Nat) (stops : List rgb)
    (minOutlierColor maxOutlierColor : rgb) : Gradient :=
  { g with
    m_min := min
    m_max := max
    m_stops := stops
    m_minOutlierColor := minOutlierColor
    m_maxOutlierColor := maxOutlierColor }

/-- `Gradient() {}`: default construction.  The `std::vector` member is
default-constructed (empty); every scalar/`rgb` member is left
indeterminate, which the model makes explicit by taking the indeterminate
contents as parameters. -/
def defaultCtor (junkMin : Nat) (junkMinColor junkMinOutlier : rgb)
    (junkMax : Nat) (junkMaxColor junkMaxOutlier : rgb) : Gradient :=
  ⟨junkMin, junkMinColor, junkMinOutlier, junkMax, junkMaxColor, junkMaxOutlier, []⟩

/-- `Gradient(uint16_t min, uint16_t max, ...) { initialize(...); }`: the
parameterised constructor starts from the same indeterminate fresh state
and runs `initialize` on it. -/
def paramCtor (junkMin : Nat) (junkMinColor junkMinOutlier : rgb)
    (junkMax : Nat) (junkMaxColor junkMaxOutlier : rgb)
    (min max : Nat) (stops : List rgb) (minOutlierColor maxOutlierColor : rgb) : Gradient :=
  (defaultCtor junkMin junkMinColor junkMinOutlier junkMax junkMaxColor junkMaxOutlier).initializeModel
    min max stops minOutlierColor maxOutlierColor

/-- `getRgb` with the object state threaded explicitly: the translation of
the method body as a state transformer `State → (result, State)`.  No
statement of the body assigns to a member, so every branch returns the
incoming state. -/
def getRgbS (g : Gradient) (value : Nat) : Option rgb × Gradient :=
  if value < g.m_min then
    (if g.m_minOutlierColor.eqOp INVALID_COLOR then g.m_stops.head?
     else some g.m_minOutlierColor, g)
  else if g.m_max < value then
    (if g.m_maxOutlierColor.eqOp INVALID_COLOR then g.m_stops.getLast?
     else some g.m_maxOutlierColor, g)
  else
    (match g.m_stops.get? (g.binOf value), g.m_stops.get? (g.binOf value + 1) with
     | some c1, some c2 => some (interpolate c1 c2 (g.normalizedOf value))
     | _, _ => none, g)

end Gradient

/-! ## Characterisation of the bin arithmetic -/

namespace Gradient

/-- The in-range bin computation is the integer division
`(value - min) * (k - 1) / (max - min)`: the ℚ quotient `v / step` has
exact value `v * (k - 1) / range`, and its floor is the `Nat` division.
(The identity also covers the degenerate `range = 0` / `k < 2` cases,
where ℚ division by zero makes both sides `0`.) -/
theorem binOf_eq_div (g : Gradient) (value : Nat) :
    g.binOf value = (value - g.m_min) * (g.m_stops.length - 1) / g.rangeOf := by
  unfold binOf stepOf
  rw [div_div_eq_mul_div, ← Nat.cast_mul, Rat.floor_natCast_div_natCast,
    ← Int.natCast_div, Int.toNat_natCast]

/-- The normalised value is the fractional part the division above threw
away: `(v * (k - 1) mod range) / range`. -/
theorem normalizedOf_eq (g : Gradient) (value : Nat) (hk : 2 ≤ g.m_stops.length)
    (hr : 0 < g.rangeOf) :
    g.normalizedOf value =
      (((value - g.m_min) * (g.m_stops.length - 1) % g.rangeOf : Nat) : ℚ) /
        (g.rangeOf : ℚ) := by
  have hrq : ((g.rangeOf : ℚ)) ≠ 0 := by exact_mod_cast hr.ne'
  have hkq : (((g.m_stops.length - 1 : Nat)) : ℚ) ≠ 0 := by
    exact_mod_cast (by omega : (g.m_stops.length - 1 : Nat) ≠ 0)
  have hmod : (g.rangeOf : ℚ) * ((((value - g.m_min) * (g.m_stops.length - 1)) / g.rangeOf : Nat) : ℚ)
      + (((value - g.m_min) * (g.m_stops.length - 1) % g.rangeOf : Nat) : ℚ)
      = (((value - g.m_min) * (g.m_stops.length - 1) : Nat) : ℚ) := by
    exact_mod_cast congrArg (Nat.cast : Nat → ℚ)
      (Nat.div_add_mod ((value - g.m_min) * (g.m_stops.length - 1)) g.rangeOf)
  have hk1 : ((g.m_stops.length : ℚ) - 1) ≠ 0 := by
    have h2 : (2 : ℚ) ≤ (g.m_stops.length : ℚ) := by exact_mod_cast hk
    intro h0
    linarith
  unfold normalizedOf stepOf
  rw [binOf_eq_div]
  push_cast [Nat.cast_sub (by omega : 1 ≤ g.m_stops.length)] at hmod ⊢
  field_simp
  ring_nf
  ring_nf at hmod
  linarith [hmod]

/-- Reading the source's outlier branch for `value < m_min`: the sentinel
test is `rgb.eqOp`, which never succeeds, so the branch yields
`m_minOutlierColor`. -/
theorem getRgb_of_lt_min (g : Gradient) (value : Nat) (h : value < g.m_min) :
    g.getRgb value = some g.m_minOutlierColor := by
  unfold getRgb
  rw [if_pos h]
  rfl

/-- The outlier branch for `value > m_max` (reachable when the first branch
declined): it yields `m_maxOutlierColor`. -/
theorem getRgb_of_gt_max (g : Gradient) (value : Nat) (hge : g.m_min ≤ value)
    (h : g.m_max < value) :
    g.getRgb value = some g.m_maxOutlierColor := by
  unfold getRgb
  rw [if_neg (by omega), if_pos h]
  rfl

/-- The in-range branch: both stop reads, `none` on an out-of-bounds one. -/
theorem getRgb_in_range (g : Gradient) (value : Nat) (h1 : g.m_min ≤ value)
    (h2 : value ≤ g.m_max) :
    g.getRgb value =
      match g.m_stops.get? (g.binOf value), g.m_stops.get? (g.binOf value + 1) with
      | some c1, some c2 => some (interpolate c1 c2 (g.normalizedOf value))
      | _, _ => none := by
  unfold getRgb
  rw [if_neg (by omega), if_neg (by omega)]

end Gradient

/-! ## Helper lemmas for the interpolation cast -/

/-- On `[0, 255]` the `(uint8_t)` cast is plain truncation toward zero
(equivalently the floor, as the value is nonnegative) and never wraps. -/
theorem u8cast_eq_floor (q : ℚ) (h0 : 0 ≤ q) (h255 : q ≤ 255) :
    u8cast q = (⌊q⌋).toNat ∧ (⌊q⌋).toNat ≤ 255 := by
  unfold u8cast truncToZero
  rw [if_neg (not_lt.mpr h0)]
  have hf : ⌊q⌋ ≤ 255 := by
    have h := Int.floor_le_floor (α := ℚ) h255
    simpa using h
  exact ⟨Nat.mod_eq_of_lt (by omega), by omega⟩

/-- A convex blend of two channel values stays inside the channel range. -/
theorem blend_mem_range (a b : Nat) (t : ℚ) (ha : a ≤ 255) (hb : b ≤ 255)
    (h0 : 0 < t) (h1 : t < 1) :
    0 ≤ (1 - t) * (a : ℚ) + t * (b : ℚ) ∧ (1 - t) * (a : ℚ) + t * (b : ℚ) ≤ 255 := by
  have ha' : (a : ℚ) ≤ 255 := by exact_mod_cast ha
  have hb' : (b : ℚ) ≤ 255 := by exact_mod_cast hb
  have ha0 : (0 : ℚ) ≤ (a : ℚ) := by positivity
  have hb0 : (0 : ℚ) ≤ (b : ℚ) := by positivity
  have k1 : (1 - t) * (a : ℚ) ≤ (1 - t) * 255 :=
    mul_le_mul_of_nonneg_left ha' (by linarith)
  have k2 : t * (b : ℚ) ≤ t * 255 := mul_le_mul_of_nonneg_left hb' (by linarith)
  have k3 : 0 ≤ (1 - t) * (a : ℚ) := mul_nonneg (by linarith) ha0
  have k4 : 0 ≤ t * (b : ℚ) := mul_nonneg (by linarith) hb0
  constructor
  · linarith
  · nlinarith

/-! ## Claims -/

/-- **C3.** For every pair of rgb colors `a` and `b` — including `a`
compared with itself and comparison against `INVALID_COLOR` — the equality
operator returns false (it compares the receiver's address with that of a
by-value parameter copy); consequently the sentinel test in `getRgb`'s
outlier branches never succeeds: both branches return the stored outlier
color and never reach `stops.front()` / `stops.back()`. -/
theorem rgb_eqOp_always_false :
    (∀ a b : rgb, a.eqOp b = false) ∧
    (∀ a : rgb, a.eqOp a = false) ∧
    (∀ a : rgb, a.eqOp INVALID_COLOR = false) ∧
    (∀ (g : Gradient) (value : Nat), value < g.m_min →
      g.getRgb value = some g.m_minOutlierColor) ∧
    (∀ (g : Gradient) (value : Nat), g.m_min ≤ value → g.m_max < value →
      g.getRgb value = some g.m_maxOutlierColor) :=
  ⟨fun _ _ => rfl, fun _ => rfl, fun _ => rfl,
    fun g value h => g.getRgb_of_lt_min value h,
    fun g value h1 h2 => g.getRgb_of_gt_max value h1 h2⟩

/-- Witness for C3 at concrete inputs. -/
theorem rgb_eqOp_always_false_witness :
    rgb.eqOp ⟨1, 2, 3⟩ ⟨1, 2, 3⟩ = false ∧
    (Gradient.mk 10 ⟨0, 0, 0⟩ ⟨7, 8, 9⟩ 20 ⟨0, 0, 0⟩ ⟨4, 5, 6⟩
      [⟨1, 1, 1⟩, ⟨2, 2, 2⟩]).getRgb 3 = some ⟨7, 8, 9⟩ ∧
    (Gradient.mk 10 ⟨0, 0, 0⟩ ⟨7, 8, 9⟩ 20 ⟨0, 0, 0⟩ ⟨4, 5, 6⟩
      [⟨1, 1, 1⟩, ⟨2, 2, 2⟩]).getRgb 25 = some ⟨4, 5, 6⟩ :=
  ⟨rgb_eqOp_always_false.1 ⟨1, 2, 3⟩ ⟨1, 2, 3⟩,
    rgb_eqOp_always_false.2.2.2.1 _ 3 (by decide),
    rgb_eqOp_always_false.2.2.2.2 _ 25 (by decide) (by decide)⟩

/-- **C5.** A gradient initialised with explicit outlier colors `C`, `D`
returns `C` for every `value < min` and `D` for every `value > max`
(the latter for a sane range `min ≤ max`, per the data-model contract). -/
theorem getRgb_explicit_outlier (g0 : Gradient) (min max : Nat)
    (stops : List rgb) (C D : rgb) (value : Nat) :
    (value < min →
      (g0.initializeModel min max stops C D).getRgb value = some C) ∧
    (min ≤ max → max < value →
      (g0.initializeModel min max stops C D).getRgb value = some D) :=
  ⟨fun h => (g0.initializeModel min max stops C D).getRgb_of_lt_min value h,
    fun hmm h => (g0.initializeModel min max stops C D).getRgb_of_gt_max value
      ((by omega : min ≤ value) : (g0.initializeModel min max stops C D).m_min ≤ value) h⟩

/-- Witness for C5 at concrete inputs. -/
theorem getRgb_explicit_outlier_witness :
    ((Gradient.mk 0 ⟨0, 0, 0⟩ ⟨0, 0, 0⟩ 0 ⟨0, 0, 0⟩ ⟨0, 0, 0⟩ []).initializeModel
        10 20 [⟨1, 1, 1⟩, ⟨2, 2, 2⟩] ⟨30, 40, 50⟩ ⟨60, 70, 80⟩).getRgb 5 =
      some ⟨30, 40, 50⟩ ∧
    ((Gradient.mk 0 ⟨0, 0, 0⟩ ⟨0, 0, 0⟩ 0 ⟨0, 0, 0⟩ ⟨0, 0, 0⟩ []).initializeModel
        10 20 [⟨1, 1, 1⟩, ⟨2, 2, 2⟩] ⟨30, 40, 50⟩ ⟨60, 70, 80⟩).getRgb 25 =
      some ⟨60, 70, 80⟩ :=
  ⟨(getRgb_explicit_outlier _ 10 20 [⟨1, 1, 1⟩, ⟨2, 2, 2⟩] ⟨30, 40, 50⟩ ⟨60, 70, 80⟩ 5).1
      (by decide),
    (getRgb_explicit_outlier _ 10 20 [⟨1, 1, 1⟩, ⟨2, 2, 2⟩] ⟨30, 40, 50⟩ ⟨60, 70, 80⟩ 25).2
      (by decide) (by decide)⟩

/-- **C7.** `interpolate` short-circuits to `c1` for `t ≤ 0` and to `c2`
for `t ≥ 1`; for interior `t` each output channel is the real blend
`(1-t)*c1.ch + t*c2.ch` narrowed by truncation toward zero (the floor of a
nonnegative value, not rounding to nearest), and the blend never leaves the
8-bit range, so the narrowing never wraps. -/
theorem interpolate_spec (c1 c2 : rgb) (t : ℚ) (h1 : c1.Valid) (h2 : c2.Valid) :
    (t ≤ 0 → Gradient.interpolate c1 c2 t = c1) ∧
    (1 ≤ t → Gradient.interpolate c1 c2 t = c2) ∧
    (0 < t → t < 1 →
      Gradient.interpolate c1 c2 t =
        ⟨(⌊(1 - t) * (c1.red : ℚ) + t * (c2.red : ℚ)⌋).toNat,
         (⌊(1 - t) * (c1.green : ℚ) + t * (c2.green : ℚ)⌋).toNat,
         (⌊(1 - t) * (c1.blue : ℚ) + t * (c2.blue : ℚ)⌋).toNat⟩ ∧
      (⌊(1 - t) * (c1.red : ℚ) + t * (c2.red : ℚ)⌋).toNat ≤ 255 ∧
      (⌊(1 - t) * (c1.green : ℚ) + t * (c2.green : ℚ)⌋).toNat ≤ 255 ∧
      (⌊(1 - t) * (c1.blue : ℚ) + t * (c2.blue : ℚ)⌋).toNat ≤ 255) := by
  obtain ⟨hr1, hg1, hb1⟩ := h1
  obtain ⟨hr2, hg2, hb2⟩ := h2
  refine ⟨fun h => ?_, fun h => ?_, fun ht0 ht1 => ?_⟩
  · unfold Gradient.interpolate
    rw [if_pos h]
  · unfold Gradient.interpolate
    rw [if_neg (by linarith), if_pos h]
  · obtain ⟨hR0, hR1⟩ := blend_mem_range c1.red c2.red t hr1 hr2 ht0 ht1
    obtain ⟨hG0, hG1⟩ := blend_mem_range c1.green c2.green t hg1 hg2 ht0 ht1
    obtain ⟨hB0, hB1⟩ := blend_mem_range c1.blue c2.blue t hb1 hb2 ht0 ht1
    obtain ⟨eR, bR⟩ := u8cast_eq_floor _ hR0 hR1
    obtain ⟨eG, bG⟩ := u8cast_eq_floor _ hG0 hG1
    obtain ⟨eB, bB⟩ := u8cast_eq_floor _ hB0 hB1
    refine ⟨?_, bR, bG, bB⟩
    unfold Gradient.interpolate
    rw [if_neg (by linarith), if_neg (by linarith)]
    simp [eR, eG, eB]

/-- Witness for C7 at `t = 1/2` (and the short-circuit ends). -/
theorem interpolate_spec_witness :
    Gradient.interpolate ⟨0, 0, 0⟩ ⟨255, 255, 255⟩ 0 = ⟨0, 0, 0⟩ ∧
    Gradient.interpolate ⟨0, 0, 0⟩ ⟨255, 255, 255⟩ 1 = ⟨255, 255, 255⟩ ∧
    Gradient.interpolate ⟨0, 0, 0⟩ ⟨255, 255, 255⟩ (1 / 2) =
      ⟨(⌊(1 - (1 / 2 : ℚ)) * ((0 : Nat) : ℚ) + (1 / 2 : ℚ) * ((255 : Nat) : ℚ)⌋).toNat,
       (⌊(1 - (1 / 2 : ℚ)) * ((0 : Nat) : ℚ) + (1 / 2 : ℚ) * ((255 : Nat) : ℚ)⌋).toNat,
       (⌊(1 - (1 / 2 : ℚ)) * ((0 : Nat) : ℚ) + (1 / 2 : ℚ) * ((255 : Nat) : ℚ)⌋).toNat⟩ :=
  ⟨(interpolate_spec ⟨0, 0, 0⟩ ⟨255, 255, 255⟩ 0 (by decide) (by decide)).1 le_rfl,
    (interpolate_spec ⟨0, 0, 0⟩ ⟨255, 255, 255⟩ 1 (by decide) (by decide)).2.1 le_rfl,
    ((interpolate_spec ⟨0, 0, 0⟩ ⟨255, 255, 255⟩ (1 / 2) (by decide) (by decide)).2.2
        (by norm_num) (by norm_num)).1⟩

/-- **C9.** The state-threaded translation of `getRgb` returns the incoming
state unchanged in every branch and computes exactly the pure function
`getRgb` of the stored fields and the input, so a repeated call on the
resulting state returns the identical result. -/
theorem getRgbS_pure (g : Gradient) (value : Nat) :
    g.getRgbS value = (g.getRgb value, g) ∧
    ((g.getRgbS value).2.getRgbS value).1 = (g.getRgbS value).1 := by
  have h : g.getRgbS value = (g.getRgb value, g) := by
    unfold Gradient.getRgbS Gradient.getRgb
    split_ifs <;> rfl
  exact ⟨h, by rw [h, h]⟩

/-- **C10.** Constructing a `Gradient` with a parameter set is
observationally equivalent — same `getRgb` answer on every query — to
default-constructing one (with any indeterminate field contents) and then
calling `initialize` with the same parameters. -/
theorem ctor_equiv_default_then_init
    (jMin : Nat) (jMinC jMinO : rgb) (jMax : Nat) (jMaxC jMaxO : rgb)
    (kMin : Nat) (kMinC kMinO : rgb) (kMax : Nat) (kMaxC kMaxO : rgb)
    (min max : Nat) (stops : List rgb) (minOC maxOC : rgb) (value : Nat) :
    (Gradient.paramCtor jMin jMinC jMinO jMax jMaxC jMaxO
        min max stops minOC maxOC).getRgb value =
      ((Gradient.defaultCtor kMin kMinC kMinO kMax kMaxC kMaxO).initializeModel
        min max stops minOC maxOC).getRgb value := by
  unfold Gradient.paramCtor Gradient.defaultCtor Gradient.initializeModel
  unfold Gradient.getRgb Gradient.normalizedOf Gradient.binOf Gradient.stepOf Gradient.rangeOf
  rfl

/-! ## Concrete gradients used as failing inputs -/

/-- `initialize(0, 100, {{1,2,3},{4,5,6}})` with default outlier colors,
constructed through the parameterised constructor (junk fresh state made
explicit and concrete). -/
def twoStopG : Gradient :=
  Gradient.paramCtor 0 ⟨0, 0, 0⟩ ⟨0, 0, 0⟩ 0 ⟨0, 0, 0⟩ ⟨0, 0, 0⟩
    0 100 [⟨1, 2, 3⟩, ⟨4, 5, 6⟩] INVALID_COLOR INVALID_COLOR

/-- `initialize(10, 20, {{255,255,255},{9,9,9}})` with the outlier colors
left at the `INVALID_COLOR` default. -/
def defaultOutlierG : Gradient :=
  Gradient.paramCtor 0 ⟨0, 0, 0⟩ ⟨0, 0, 0⟩ 0 ⟨0, 0, 0⟩ ⟨0, 0, 0⟩
    10 20 [⟨255, 255, 255⟩, ⟨9, 9, 9⟩] INVALID_COLOR INVALID_COLOR

/-- `initialize(0, 4, {{10,20,30},{10,20,30}})`: the two-stop degenerate
gradient of the round-trip property. -/
def degenerateG : Gradient :=
  Gradient.paramCtor 0 ⟨0, 0, 0⟩ ⟨0, 0, 0⟩ 0 ⟨0, 0, 0⟩ ⟨0, 0, 0⟩
    0 4 [⟨10, 20, 30⟩, ⟨10, 20, 30⟩] INVALID_COLOR INVALID_COLOR

/-- **C1** (code-bug evidence).  `getRgb` clamps nothing: at `value = max`
the bin computed for a 2-stop gradient over `[0, 100]` is
`1 = stops.length - 1`, the read of `m_stops[bin + 1] = m_stops[2]` is one
past the end of the stop vector, and the model's `getRgb(max)` is the
out-of-bounds result `none` — refuting "the computed bin index is clamped
to at most stops.length - 2, so every vector access is in bounds". -/
theorem getRgb_top_edge_reads_past_end :
    twoStopG.m_stops.length = 2 ∧
    twoStopG.binOf 100 = 1 ∧
    twoStopG.m_stops.get? (1 + 1) = none ∧
    twoStopG.getRgb 100 = none := by
  have hb : twoStopG.binOf 100 = 1 := by rw [Gradient.binOf_eq_div]; decide
  refine ⟨rfl, hb, rfl, ?_⟩
  rw [Gradient.getRgb_in_range twoStopG 100 (by decide) (by decide), hb]
  rfl

/-- **C2** (code-bug evidence).  Outlier colors left at the sentinel
default: a below-range query returns the stored `INVALID_COLOR = {0,0,0}`
(the sentinel test never fires), not `stops.front() = {255,255,255}`; an
above-range query likewise returns `{0,0,0}`, not
`stops.back() = {9,9,9}`. -/
theorem getRgb_default_outlier_not_front_back :
    defaultOutlierG.getRgb 3 = some ⟨0, 0, 0⟩ ∧
    defaultOutlierG.m_stops.head? = some ⟨255, 255, 255⟩ ∧
    defaultOutlierG.getRgb 25 = some ⟨0, 0, 0⟩ ∧
    defaultOutlierG.m_stops.getLast? = some ⟨9, 9, 9⟩ := by
  refine ⟨?_, rfl, ?_, rfl⟩
  · exact Gradient.getRgb_of_lt_min _ 3 (by decide)
  · exact Gradient.getRgb_of_gt_max _ 25 (by decide) (by decide)

/-- **C4** (code-bug evidence).  For the two-stop gradient `[A, B]` over
`[0, 100]`, `getRgb(min)` does return `A` exactly, but `getRgb(max)` does
not return `B`: the unclamped bin makes it read one stop past the end. -/
theorem getRgb_two_stop_boundary :
    twoStopG.getRgb 0 = some ⟨1, 2, 3⟩ ∧ twoStopG.getRgb 100 = none := by
  constructor
  · have hb : twoStopG.binOf 0 = 0 := by rw [Gradient.binOf_eq_div]; decide
    have hn : twoStopG.normalizedOf 0 = 0 := by
      rw [Gradient.normalizedOf_eq twoStopG 0 (by decide) (by decide)]
      show ((0 : ℕ) : ℚ) / ((100 : ℕ) : ℚ) = 0
      norm_num
    rw [Gradient.getRgb_in_range twoStopG 0 (by decide) (by decide), hb, hn]
    show some (Gradient.interpolate ⟨1, 2, 3⟩ ⟨4, 5, 6⟩ 0) = some ⟨1, 2, 3⟩
    unfold Gradient.interpolate
    rw [if_pos le_rfl]
  · have hb : twoStopG.binOf 100 = 1 := by rw [Gradient.binOf_eq_div]; decide
    rw [Gradient.getRgb_in_range twoStopG 100 (by decide) (by decide), hb]
    rfl

/-- **C6** (code-bug evidence).  The degenerate gradient with two identical
stops `{10,20,30}` over `[0, 4]` does return `{10,20,30}` at every
in-range value below `max` (shown at 0, 1 and 3, exercising `t = 0` and
interior blends), but at `value = max` the unclamped bin reads past the end
of the stop vector instead of returning `{10,20,30}`. -/
theorem getRgb_degenerate_two_stop :
    degenerateG.getRgb 0 = some ⟨10, 20, 30⟩ ∧
    degenerateG.getRgb 1 = some ⟨10, 20, 30⟩ ∧
    degenerateG.getRgb 3 = some ⟨10, 20, 30⟩ ∧
    degenerateG.getRgb 4 = none := by
  refine ⟨?_, ?_, ?_, ?_⟩
  · have hb : degenerateG.binOf 0 = 0 := by rw [Gradient.binOf_eq_div]; decide
    have hn : degenerateG.normalizedOf 0 = 0 := by
      rw [Gradient.normalizedOf_eq degenerateG 0 (by decide) (by decide)]
      show ((0 : ℕ) : ℚ) / ((4 : ℕ) : ℚ) = 0
      norm_num
    rw [Gradient.getRgb_in_range degenerateG 0 (by decide) (by decide), hb, hn]
    show some (Gradient.interpolate ⟨10, 20, 30⟩ ⟨10, 20, 30⟩ 0) = some ⟨10, 20, 30⟩
    unfold Gradient.interpolate
    rw [if_pos le_rfl]
  · have hb : degenerateG.binOf 1 = 0 := by rw [Gradient.binOf_eq_div]; decide
    have hn : degenerateG.normalizedOf 1 = 1 / 4 := by
      rw [Gradient.normalizedOf_eq degenerateG 1 (by decide) (by decide)]
      show ((1 : ℕ) : ℚ) / ((4 : ℕ) : ℚ) = 1 / 4
      norm_num
    rw [Gradient.getRgb_in_range degenerateG 1 (by decide) (by decide), hb, hn]
    show some (Gradient.interpolate ⟨10, 20, 30⟩ ⟨10, 20, 30⟩ (1 / 4)) =
      some ⟨10, 20, 30⟩
    unfold Gradient.interpolate
    rw [if_neg (by norm_num), if_neg (by norm_num)]
    unfold u8cast truncToZero
    norm_num
    decide
  · have hb : degenerateG.binOf 3 = 0 := by rw [Gradient.binOf_eq_div]; decide
    have hn : degenerateG.normalizedOf 3 = 3 / 4 := by
      rw [Gradient.normalizedOf_eq degenerateG 3 (by decide) (by decide)]
      show ((3 : ℕ) : ℚ) / ((4 : ℕ) : ℚ) = 3 / 4
      norm_num
    rw [Gradient.getRgb_in_range degenerateG 3 (by decide) (by decide), hb, hn]
    show some (Gradient.interpolate ⟨10, 20, 30⟩ ⟨10, 20, 30⟩ (3 / 4)) =
      some ⟨10, 20, 30⟩
    unfold Gradient.interpolate
    rw [if_neg (by norm_num), if_neg (by norm_num)]
    unfold u8cast truncToZero
    norm_num
    decide
  · have hb : degenerateG.binOf 4 = 1 := by rw [Gradient.binOf_eq_div]; decide
    rw [Gradient.getRgb_in_range degenerateG 4 (by decide) (by decide), hb]
    rfl

/-- `initialize(0, 10, {{1,2,3},{4,5,6}})` with default outlier colors. -/
def narrowG : Gradient :=
  Gradient.paramCtor 0 ⟨0, 0, 0⟩ ⟨0, 0, 0⟩ 0 ⟨0, 0, 0⟩ ⟨0, 0, 0⟩
    0 10 [⟨1, 2, 3⟩, ⟨4, 5, 6⟩] INVALID_COLOR INVALID_COLOR

/-- **C8** (code-bug evidence).  For the 2-stop gradient over `[0, 10]`
the bin index takes 2 distinct values on the closed interval (`0` below
`max` and `1` at `max`), not the claimed `stops.length - 1 = 1`.  At this
input the source's float arithmetic is exact (`step` is exactly `10.0f`
and `v / step` truncates to `0` for `v < 10` and to `1` at `v = 10`), so
the program's bin trace coincides with the model's: the missing top-edge
clamp makes the extra bin value appear at `value = max`. -/
theorem bin_distinct_count_counterexample :
    ((Finset.Icc 0 10).image narrowG.binOf).card = 2 ∧
    narrowG.m_stops.length - 1 = 1 := by
  have himg : (Finset.Icc 0 10).image narrowG.binOf =
      (Finset.Icc 0 10).image
        (fun v =>
          (v - narrowG.m_min) * (narrowG.m_stops.length - 1) / narrowG.rangeOf) :=
    Finset.image_congr fun v _ => Gradient.binOf_eq_div narrowG v
  exact ⟨by rw [himg]; decide, by decide⟩
